import Mathlib

/-!
Shallow embedding of the UCI chess-engine client in `src/uci.rs` (crate `cgir`).

Moves are abstract identifiers (`ChessMove := Nat`): this module never inspects a
move's structure, it only stores, forwards and compares moves for equality.
Inbound engine messages, the per-`Info` attribute list, and the reader-loop that
converts inbound messages to `Analysis` events are embedded directly from the
source.  Panics in the Rust code (`panic!`, `expect`, out-of-bounds indexing)
are embedded as `Except` errors.
-/

/-- Abstract chess move: the client only compares moves for equality. -/
abbrev ChessMove := Nat

/-- Attributes carried by a UCI `info` line, as consumed by the reader loop
(`vampirc_uci::UciInfoAttribute`, restricted to the constructors the loop
matches on; `other` stands for every ignored attribute). -/
inductive UciInfoAttribute where
  | depth (d : Nat)
  | score (cp : Option Int) (mate : Option Int)
  | pv (moves : List ChessMove)
  | multiPv (m : Nat)
  | str (s : String)
  | other
deriving Repr, DecidableEq

/-- Inbound/outbound UCI messages relevant to the embedded code paths
(`vampirc_uci::UciMessage`, restricted; `otherMsg` stands for any other
message). -/
inductive UciMessage where
  | uci
  | uciOk
  | isReady
  | readyOk
  | uciNewGame
  | setOption (nm : String) (value : Option String)
  | position (fen : String) (moves : List ChessMove)
  | go (depth : Option Nat)
  | stop
  | info (attrs : List UciInfoAttribute)
  | bestMove (best : ChessMove) (ponder : Option ChessMove)
  | otherMsg
deriving Repr, DecidableEq

/-- `struct PossibleMove` from `uci.rs`: a candidate move at a given depth. -/
structure PossibleMove where
  depth : Nat
  score : Int
  multi_pv : Nat
  moves : List ChessMove
deriving Repr, DecidableEq

/-- `PossibleMove::default()` (all fields zero/empty, from `#[derive(Default)]`). -/
def PossibleMove.default : PossibleMove :=
  { depth := 0, score := 0, multi_pv := 0, moves := [] }

/-- `enum Analysis` from `uci.rs`. -/
inductive Analysis where
  | possibleMove (pm : PossibleMove)
  | bestMove (mv : ChessMove)
deriving Repr, DecidableEq

/-- Whether an `Analysis` event is the terminal `BestMove` variant. -/
def Analysis.isBest : Analysis → Bool
  | .bestMove _ => true
  | _ => false

/-- One iteration of the `for attr in attrs` loop in the reader thread:
updates the `PossibleMove` under construction from a single attribute.
A `Score` attribute only updates the score when `cp` is present; a
mate-distance-only score leaves the score untouched. -/
def applyAttr (pm : PossibleMove) : UciInfoAttribute → PossibleMove
  | .depth d => { pm with depth := d }
  | .score cp _ =>
      match cp with
      | some s => { pm with score := s }
      | none => pm
  | .pv mvs => { pm with moves := mvs }
  | .multiPv m => { pm with multi_pv := m }
  | .str _ => pm
  | .other => pm

/-- The `UciMessage::Info(attrs)` arm of the reader loop: start from
`PossibleMove::default()` with `multi_pv` preset to 1 ("just in case we
didn't set the MultiPV option"), then fold the attributes in order. -/
def processInfo (attrs : List UciInfoAttribute) : PossibleMove :=
  attrs.foldl applyAttr { PossibleMove.default with multi_pv := 1 }

/-- Why the reader loop aborts: a decoded message outside {Info, BestMove}
(`panic!("Unexpected message")`), or the inbound stream ended before a
`BestMove` was seen (the real loop would block forever on `read_line`). -/
inductive SessionError where
  | unexpectedMessage (msg : UciMessage)
  | streamEnded
deriving Repr, DecidableEq

/-- The reader-loop of `analyze` with the receiver still attached, as a function
of the inbound message trace: each `Info` becomes a `PossibleMove` event, the
first `BestMove` becomes the terminal event and stops the loop, any other
message aborts the session. -/
def sessionEvents : List UciMessage → Except SessionError (List Analysis)
  | [] => .error .streamEnded
  | (.info attrs) :: rest =>
      match sessionEvents rest with
      | .error e => .error e
      | .ok evs => .ok (Analysis.possibleMove (processInfo attrs) :: evs)
  | (.bestMove mv _) :: _ => .ok [Analysis.bestMove mv]
  | m :: _ => .error (.unexpectedMessage m)

/-- Whether a message is an `Info` message. -/
def UciMessage.isInfo : UciMessage → Bool
  | .info _ => true
  | _ => false

/-- Whether a message is a `BestMove` message. -/
def UciMessage.isBest : UciMessage → Bool
  | .bestMove _ _ => true
  | _ => false

example :
    sessionEvents [.info [.depth 3, .score (some 25) none, .pv [7, 8]],
                   .bestMove 7 none] =
      .ok [.possibleMove { depth := 3, score := 25, multi_pv := 1, moves := [7, 8] },
           .bestMove 7] := rfl

example : sessionEvents [.info [], .readyOk, .bestMove 7 none] =
    .error (.unexpectedMessage .readyOk) := rfl

/-- Result of one run of the reader-loop worker when the receiver may be
dropped mid-session: the events actually delivered to the receiver, and how
many `Stop` commands were written to the engine's stdin. -/
structure WorkerResult where
  delivered : List Analysis
  stops : Nat
deriving Repr, DecidableEq

/-- The reader-loop of `analyze` including the disconnected-receiver path.
`dropIn` counts how many more sends the receiver will accept before the caller
drops it (`0` = already dropped).  Per loop iteration: the message is mapped to
an event exactly as in `sessionEvents`; the event is sent on the channel; if the
send fails (receiver gone) a `Stop` is written to the engine — this happens on
every failed send, once per drained message.  The loop breaks only after the
event was a `BestMove`. -/
def workerLoop : Nat → List UciMessage → Except SessionError WorkerResult
  | _, [] => .error .streamEnded
  | 0, (.info _) :: rest =>
      match workerLoop 0 rest with
      | .error e => .error e
      | .ok r => .ok { delivered := r.delivered, stops := r.stops + 1 }
  | d + 1, (.info attrs) :: rest =>
      match workerLoop d rest with
      | .error e => .error e
      | .ok r => .ok { delivered := Analysis.possibleMove (processInfo attrs) :: r.delivered,
                       stops := r.stops }
  | 0, (.bestMove _ _) :: _ => .ok { delivered := [], stops := 1 }
  | _ + 1, (.bestMove mv _) :: _ => .ok { delivered := [Analysis.bestMove mv], stops := 0 }
  | _, m :: _ => .error (.unexpectedMessage m)

example : workerLoop 0 [.info [], .info [], .bestMove 9 none] =
    .ok { delivered := [], stops := 3 } := rfl

example : workerLoop 1 [.info [], .info [], .bestMove 9 none] =
    .ok { delivered := [.possibleMove (processInfo [])], stops := 2 } := rfl

/-- `start_engine`, the phase after `UciOk` has been received (lines 79‑111 of
`uci.rs`): send `IsReady`, require the very next message to be `ReadyOk` (else
`panic!("Error setting up engine")`), send `UciNewGame` and the three option
commands, send `IsReady` again and require `ReadyOk` again.  The two inbound
replies are the parameters; the result is the ready handle (`.ok`) or the
construction-time panic message. -/
def handshakeAfterUciOk (reply1 reply2 : UciMessage) : Except String Unit :=
  if UciMessage.readyOk ≠ reply1 then .error "Error setting up engine"
  else if reply2 = UciMessage.readyOk then .ok ()
  else .error "Error setting up engine"

/-- The outbound command sequence of the same phase of `start_engine` (between
the two inbound `ReadyOk` replies the code sends `UciNewGame` and three
`SetOption` commands, bracketed by the two `IsReady` probes). -/
def handshakeCommands : List UciMessage :=
  [.isReady,
   .uciNewGame,
   .setOption "Threads" (some "4"),
   .setOption "UCI_AnalyseMode" (some "true"),
   .setOption "MultiPV" (some "5"),
   .isReady]

example : handshakeAfterUciOk .readyOk .readyOk = .ok () := rfl
example : handshakeAfterUciOk .uciOk .readyOk = .error "Error setting up engine" := rfl
example : handshakeAfterUciOk .readyOk .otherMsg = .error "Error setting up engine" := rfl

/-- The outbound commands `analyze` writes before spawning its worker:
`Position {fen, moves}` followed by `Go` (fixed depth when given, else
infinite). -/
def analyzeCommands (fen : String) (moves : List ChessMove) (depth : Option Nat) :
    List UciMessage :=
  [.position fen moves, .go depth]

/-- `HashMap::insert` on the candidate map of `check_for_blunder`, modelled as
an association list keyed by `multi_pv`: a later insert at an existing key
overwrites the stored `PossibleMove` in place, otherwise the binding is
appended.  (Rust's `HashMap` iterates in unspecified order; this fixes
insertion order as the canonical iteration order.) -/
def insertPm (m : List (Nat × PossibleMove)) (pm : PossibleMove) :
    List (Nat × PossibleMove) :=
  if m.any (fun kv => kv.1 = pm.multi_pv) then
    m.map (fun kv => if kv.1 = pm.multi_pv then (pm.multi_pv, pm) else kv)
  else m ++ [(pm.multi_pv, pm)]

/-- The `for analysis in rx` fold of `check_for_blunder`: every
`PossibleMove` event is inserted into the map keyed by its `multi_pv`;
`BestMove` events are ignored by the fold. -/
def foldCandidates (evs : List Analysis) : List (Nat × PossibleMove) :=
  evs.foldl
    (fun m ev =>
      match ev with
      | .possibleMove pm => insertPm m pm
      | .bestMove _ => m)
    []

/-- Stable insertion (ascending by `key`) of one element into a sorted list:
an element is placed after every strictly smaller key and before every other,
so equal keys keep their original relative order, as `itertools`'
`sorted_by_key` guarantees. -/
def insertSortedBy (key : α → Int) (x : α) : List α → List α
  | [] => [x]
  | y :: ys => if key y < key x then y :: insertSortedBy key x ys else x :: y :: ys

/-- Stable sort ascending by `key` (`sorted_by_key` / `sorted` from
`itertools`). -/
def sortedBy (key : α → Int) (l : List α) : List α :=
  l.foldr (insertSortedBy key) []

/-- Ways `check_for_blunder` aborts: a session aborted (reader-loop error),
the `pm.moves[0]` index paniced on an empty principal variation, or
`.next().expect("Did not find any responses")` paniced on an empty second
session. -/
inductive BlunderError where
  | session (e : SessionError)
  | emptyPv
  | noResponses
deriving Repr, DecidableEq

/-- `(pm.score, pm.moves[0])` for one retained candidate: the indexing panics
(`emptyPv`) when the candidate's principal variation is empty. -/
def scoreFirstMove (pm : PossibleMove) : Except BlunderError (Int × ChessMove) :=
  match pm.moves with
  | [] => .error .emptyPv
  | mv :: _ => .ok (pm.score, mv)

/-- `(score, moves[0])` for every entry of the candidate map, in iteration
order; the first entry with an empty principal variation aborts the whole
reduction (the panic of `pm.moves[0]`). -/
def mapCandidates : List (Nat × PossibleMove) → Except BlunderError (List (Int × ChessMove))
  | [] => .ok []
  | kv :: rest =>
      match scoreFirstMove kv.2 with
      | .error e => .error e
      | .ok sm =>
          match mapCandidates rest with
          | .error e => .error e
          | .ok sms => .ok (sm :: sms)

/-- The reduction of the first session's candidate map in `check_for_blunder`:
`map (score, moves[0])` over the map's entries, then `sorted_by_key(score)`. -/
def reduceCandidates (m : List (Nat × PossibleMove)) :
    Except BlunderError (List (Int × ChessMove)) :=
  match mapCandidates m with
  | .error e => .error e
  | .ok pairs => .ok (sortedBy (fun sm => sm.1) pairs)

/-- `check_for_blunder(game, proposed_move, depth)`.  The engine's behaviour is
a parameter: `engine extraMoves depth` is the inbound message trace of the
session `analyze(game, extraMoves, Some(depth))` produces.  Steps, exactly as
in the source: run a session with no extra moves, fold its candidate events
into the map, reduce to `(score, first move)` pairs sorted by score; if the
proposed move equals any entry's move return `(false, best_moves)`; otherwise
run a second session with `[proposed]` at the same depth, fold it, take the
minimum response score (panic `noResponses` when there is none), and return
`(false, [])`. -/
def check_for_blunder (engine : List ChessMove → Nat → List UciMessage)
    (proposed : ChessMove) (depth : Nat) :
    Except BlunderError (Bool × List (Int × ChessMove)) :=
  match sessionEvents (engine [] depth) with
  | .error e => .error (.session e)
  | .ok evs1 =>
      match reduceCandidates (foldCandidates evs1) with
      | .error e => .error e
      | .ok best_moves =>
          if best_moves.any (fun sm => sm.2 = proposed) then
            .ok (false, best_moves)
          else
            match sessionEvents (engine [proposed] depth) with
            | .error e => .error (.session e)
            | .ok evs2 =>
                match sortedBy id ((foldCandidates evs2).map (fun kv => kv.2.score)) with
                | [] => .error .noResponses
                | _best_response_score :: _ => .ok (false, [])

/-- Whether an attribute list carries a centipawn score (`Score` with `cp`
present). -/
def hasCpScore (attrs : List UciInfoAttribute) : Bool :=
  attrs.any fun a =>
    match a with
    | .score (some _) _ => true
    | _ => false

/-- Whether an attribute list carries a `Depth` attribute. -/
def hasDepthAttr (attrs : List UciInfoAttribute) : Bool :=
  attrs.any fun a =>
    match a with
    | .depth _ => true
    | _ => false

/-- Whether an attribute list carries a `Pv` attribute. -/
def hasPvAttr (attrs : List UciInfoAttribute) : Bool :=
  attrs.any fun a =>
    match a with
    | .pv _ => true
    | _ => false

/-- Whether an attribute list carries a `MultiPv` attribute. -/
def hasMultiPvAttr (attrs : List UciInfoAttribute) : Bool :=
  attrs.any fun a =>
    match a with
    | .multiPv _ => true
    | _ => false

section Examples

example :
    check_for_blunder
      (fun _ _ => [.info [.score (some 10) none, .pv [5]], .bestMove 5 none]) 5 7 =
      .ok (false, [(10, 5)]) := rfl

example :
    check_for_blunder
      (fun moves _ =>
        if moves.isEmpty then
          [.info [.score (some 300) none, .pv [10, 11], .multiPv 1], .bestMove 10 none]
        else
          [.info [.score (some (-900)) none, .pv [33], .multiPv 1], .bestMove 33 none])
      77 7 = .ok (false, []) := rfl

example :
    check_for_blunder
      (fun moves _ =>
        if moves.isEmpty then
          [.info [.score (some 10) none, .pv [5]], .bestMove 5 none]
        else [.bestMove 9 none])
      7 6 = .error .noResponses := rfl

example :
    check_for_blunder
      (fun _ _ => [.info [.score (some 3) none], .bestMove 4 none]) 7 6 =
      .error .emptyPv := rfl

example : foldCandidates
    [.possibleMove { depth := 1, score := 5, multi_pv := 2, moves := [3] },
     .possibleMove { depth := 4, score := 9, multi_pv := 2, moves := [6] }] =
    [(2, { depth := 4, score := 9, multi_pv := 2, moves := [6] })] := by decide

end Examples

/-! ### Helper lemmas -/

lemma sessionEvents_map_info (infos : List (List UciInfoAttribute)) (mv : ChessMove)
    (p : Option ChessMove) :
    sessionEvents (infos.map UciMessage.info ++ [.bestMove mv p]) =
      .ok (infos.map (fun a => Analysis.possibleMove (processInfo a)) ++
            [.bestMove mv]) := by
  induction infos with
  | nil => rfl
  | cons a rest ih => simp [sessionEvents, ih]

lemma workerLoop_map_info (infos : List (List UciInfoAttribute)) (dropIn : Nat)
    (mv : ChessMove) (p : Option ChessMove) (h : dropIn ≤ infos.length) :
    workerLoop dropIn (infos.map UciMessage.info ++ [.bestMove mv p]) =
      .ok { delivered := (infos.take dropIn).map
              (fun a => Analysis.possibleMove (processInfo a)),
            stops := infos.length + 1 - dropIn } := by
  induction infos generalizing dropIn with
  | nil =>
      have h0 : dropIn = 0 := Nat.le_zero.mp (by simpa using h)
      subst h0
      rfl
  | cons a rest ih =>
      cases dropIn with
      | zero =>
          have h0 := ih 0 (Nat.zero_le _)
          simp only [List.map_cons, List.cons_append, workerLoop, List.append_eq]
          rw [h0]
          simp
      | succ d =>
          have hd : d ≤ rest.length := by simpa using h
          have hrec := ih d hd
          simp only [List.map_cons, List.cons_append, workerLoop, List.append_eq]
          rw [hrec]
          have hs : rest.length + 1 - d = (a :: rest).length + 1 - (d + 1) := by
            simp only [List.length_cons]
            omega
          simp only [List.take_succ_cons, List.map_cons]
          rw [hs]

lemma mem_insertSortedBy {key : α → Int} {x z : α} {l : List α}
    (h : z ∈ insertSortedBy key x l) : z = x ∨ z ∈ l := by
  induction l with
  | nil => simpa [insertSortedBy] using h
  | cons y ys ih =>
      by_cases hlt : key y < key x
      · simp only [insertSortedBy, if_pos hlt, List.mem_cons] at h
        rcases h with h | h
        · exact Or.inr (by simp [h])
        · rcases ih h with h' | h'
          · exact Or.inl h'
          · exact Or.inr (List.mem_cons_of_mem _ h')
      · simp only [insertSortedBy, if_neg hlt, List.mem_cons] at h
        rcases h with h | h
        · exact Or.inl h
        · exact Or.inr (by simpa using h)

lemma sorted_insertSortedBy (key : α → Int) (x : α) (l : List α)
    (h : l.Sorted (fun a b => key a ≤ key b)) :
    (insertSortedBy key x l).Sorted (fun a b => key a ≤ key b) := by
  induction l with
  | nil => simp [insertSortedBy]
  | cons y ys ih =>
      rw [List.sorted_cons] at h
      obtain ⟨hy, hys⟩ := h
      by_cases hlt : key y < key x
      · simp only [insertSortedBy, if_pos hlt]
        rw [List.sorted_cons]
        refine ⟨?_, ih hys⟩
        intro b hb
        rcases mem_insertSortedBy hb with rfl | hb'
        · exact le_of_lt hlt
        · exact hy b hb'
      · simp only [insertSortedBy, if_neg hlt]
        rw [List.sorted_cons]
        refine ⟨?_, ?_⟩
        · intro b hb
          rcases List.mem_cons.mp hb with rfl | hb'
          · exact le_of_not_lt hlt
          · exact le_trans (le_of_not_lt hlt) (hy b hb')
        · rw [List.sorted_cons]
          exact ⟨hy, hys⟩

lemma sorted_sortedBy (key : α → Int) (l : List α) :
    (sortedBy key l).Sorted (fun a b => key a ≤ key b) := by
  induction l with
  | nil => simp [sortedBy]
  | cons x xs ih => exact sorted_insertSortedBy key x _ ih

lemma foldCandidates_all_best (evs : List Analysis)
    (h : ∀ e ∈ evs, e.isBest = true) : foldCandidates evs = [] := by
  have general : ∀ (acc : List (Nat × PossibleMove)),
      evs.foldl
        (fun m ev =>
          match ev with
          | .possibleMove pm => insertPm m pm
          | .bestMove _ => m) acc = acc := by
    induction evs with
    | nil => intro acc; rfl
    | cons e rest ih =>
        intro acc
        cases e with
        | possibleMove pm =>
            have := h (.possibleMove pm) (List.mem_cons_self _ _)
            simp [Analysis.isBest] at this
        | bestMove mv =>
            have ht : ∀ x ∈ rest, Analysis.isBest x = true := fun x hx =>
              h x (List.mem_cons_of_mem _ hx)
            simpa using ih ht acc
  exact general []

lemma mapCandidates_empty_pv (m : List (Nat × PossibleMove))
    (kv : Nat × PossibleMove) (h1 : kv ∈ m) (h2 : kv.2.moves = []) :
    mapCandidates m = .error .emptyPv := by
  induction m with
  | nil => cases h1
  | cons kv0 rest ih =>
      rcases List.mem_cons.mp h1 with rfl | hmem
      · simp [mapCandidates, scoreFirstMove, h2]
      · cases hpv : kv0.2.moves with
        | nil => simp [mapCandidates, scoreFirstMove, hpv]
        | cons mv0 tl =>
            simp [mapCandidates, scoreFirstMove, hpv, ih hmem]

lemma foldl_applyAttr_depth (attrs : List UciInfoAttribute) (pm : PossibleMove)
    (h : hasDepthAttr attrs = false) :
    (attrs.foldl applyAttr pm).depth = pm.depth := by
  induction attrs generalizing pm with
  | nil => rfl
  | cons a rest ih =>
      simp only [hasDepthAttr, List.any_cons, Bool.or_eq_false_iff] at h
      obtain ⟨h1, h2⟩ := h
      rw [List.foldl_cons, ih _ h2]
      cases a with
      | depth d => simp at h1
      | score cp mate => cases cp <;> rfl
      | pv mvs => rfl
      | multiPv m => rfl
      | str s => rfl
      | other => rfl

lemma foldl_applyAttr_score (attrs : List UciInfoAttribute) (pm : PossibleMove)
    (h : hasCpScore attrs = false) :
    (attrs.foldl applyAttr pm).score = pm.score := by
  induction attrs generalizing pm with
  | nil => rfl
  | cons a rest ih =>
      simp only [hasCpScore, List.any_cons, Bool.or_eq_false_iff] at h
      obtain ⟨h1, h2⟩ := h
      rw [List.foldl_cons, ih _ h2]
      cases a with
      | depth d => rfl
      | score cp mate =>
          cases cp with
          | none => rfl
          | some s => simp at h1
      | pv mvs => rfl
      | multiPv m => rfl
      | str s => rfl
      | other => rfl

lemma foldl_applyAttr_moves (attrs : List UciInfoAttribute) (pm : PossibleMove)
    (h : hasPvAttr attrs = false) :
    (attrs.foldl applyAttr pm).moves = pm.moves := by
  induction attrs generalizing pm with
  | nil => rfl
  | cons a rest ih =>
      simp only [hasPvAttr, List.any_cons, Bool.or_eq_false_iff] at h
      obtain ⟨h1, h2⟩ := h
      rw [List.foldl_cons, ih _ h2]
      cases a with
      | depth d => rfl
      | score cp mate => cases cp <;> rfl
      | pv mvs => simp at h1
      | multiPv m => rfl
      | str s => rfl
      | other => rfl

lemma foldl_applyAttr_multi_pv (attrs : List UciInfoAttribute) (pm : PossibleMove)
    (h : hasMultiPvAttr attrs = false) :
    (attrs.foldl applyAttr pm).multi_pv = pm.multi_pv := by
  induction attrs generalizing pm with
  | nil => rfl
  | cons a rest ih =>
      simp only [hasMultiPvAttr, List.any_cons, Bool.or_eq_false_iff] at h
      obtain ⟨h1, h2⟩ := h
      rw [List.foldl_cons, ih _ h2]
      cases a with
      | depth d => rfl
      | score cp mate => cases cp <;> rfl
      | pv mvs => rfl
      | multiPv m => simp at h1
      | str s => rfl
      | other => rfl

/-! ### Claim theorems -/

/-- C3: for every inbound session trace of the form `Info* BestMove`, the event
stream of one `analyze` session ends with exactly one `BestMove` event and no
event is emitted after it. -/
theorem session_single_terminal_bestmove (infos : List (List UciInfoAttribute))
    (mv : ChessMove) (p : Option ChessMove) :
    ∃ evs, sessionEvents (infos.map UciMessage.info ++ [.bestMove mv p]) = .ok evs ∧
      evs.getLast? = some (.bestMove mv) ∧
      evs.countP Analysis.isBest = 1 := by
  refine ⟨_, sessionEvents_map_info infos mv p, ?_, ?_⟩
  · simp
  · simp [List.countP_append, Analysis.isBest, List.countP_map, Function.comp]

/-- C4: with the receiver attached, the reader loop emits one `CandidateLine`
(`PossibleMove`) event per received `Info` message, in emission order, before
the terminal `BestMove` — the events are exactly the `Info` attribute lists
mapped through `processInfo`, none dropped or reordered. -/
theorem candidate_lines_match_infos (infos : List (List UciInfoAttribute))
    (mv : ChessMove) (p : Option ChessMove) :
    sessionEvents (infos.map UciMessage.info ++ [.bestMove mv p]) =
      .ok (infos.map (fun a => Analysis.possibleMove (processInfo a)) ++
            [.bestMove mv]) ∧
    (infos.map (fun a => Analysis.possibleMove (processInfo a))).length =
      infos.length :=
  ⟨sessionEvents_map_info infos mv p, by simp⟩

/-- C7: any decoded message outside {Info, BestMove} during an active session
is fatal: the reader loop aborts with `unexpectedMessage` (the `panic!`),
regardless of what follows — no resynchronization. -/
theorem session_fatal_on_unexpected_message (pre : List UciMessage)
    (m : UciMessage) (rest : List UciMessage)
    (hpre : ∀ x ∈ pre, x.isInfo = true)
    (hm1 : m.isInfo = false) (hm2 : m.isBest = false) :
    sessionEvents (pre ++ m :: rest) = .error (.unexpectedMessage m) := by
  induction pre with
  | nil =>
      cases m with
      | info attrs => simp [UciMessage.isInfo] at hm1
      | bestMove b q => simp [UciMessage.isBest] at hm2
      | uci => rfl
      | uciOk => rfl
      | isReady => rfl
      | readyOk => rfl
      | uciNewGame => rfl
      | setOption nm v => rfl
      | position fen mvs => rfl
      | go d => rfl
      | stop => rfl
      | otherMsg => rfl
  | cons x pre' ih =>
      have hx := hpre x (List.mem_cons_self _ _)
      have ih' := ih fun y hy => hpre y (List.mem_cons_of_mem _ hy)
      cases x with
      | info attrs => simp [sessionEvents, ih']
      | uci => simp [UciMessage.isInfo] at hx
      | uciOk => simp [UciMessage.isInfo] at hx
      | isReady => simp [UciMessage.isInfo] at hx
      | readyOk => simp [UciMessage.isInfo] at hx
      | uciNewGame => simp [UciMessage.isInfo] at hx
      | setOption nm v => simp [UciMessage.isInfo] at hx
      | position fen mvs => simp [UciMessage.isInfo] at hx
      | go d => simp [UciMessage.isInfo] at hx
      | stop => simp [UciMessage.isInfo] at hx
      | bestMove b q => simp [UciMessage.isInfo] at hx
      | otherMsg => simp [UciMessage.isInfo] at hx

/-- C7 witness: one `Info`, then a `ReadyOk` mid-session, aborts the session. -/
theorem session_fatal_on_unexpected_message_witness :
    sessionEvents [UciMessage.info [], UciMessage.readyOk] =
      .error (.unexpectedMessage .readyOk) :=
  session_fatal_on_unexpected_message [.info []] .readyOk [] (by decide) rfl rfl

/-- C5: the post-`UciOk` handshake succeeds (returns the ready handle) exactly
when both `IsReady` probes are answered by `ReadyOk` as the very next message;
any other reply to either probe fails engine construction. -/
theorem handshake_requires_two_readyok (r1 r2 : UciMessage) :
    handshakeAfterUciOk r1 r2 = .ok () ↔
      r1 = UciMessage.readyOk ∧ r2 = UciMessage.readyOk := by
  unfold handshakeAfterUciOk
  split_ifs with h1 h2
  · constructor
    · intro hc
      exact absurd hc (by simp)
    · rintro ⟨rfl, -⟩
      exact absurd rfl h1
  · constructor
    · intro _
      exact ⟨(not_ne_iff.mp h1).symm, h2⟩
    · intro _
      rfl
  · constructor
    · intro hc
      exact absurd hc (by simp)
    · rintro ⟨-, rfl⟩
      exact absurd rfl h2

/-- C5 witness: both probes answered `ReadyOk` yields a ready handle. -/
theorem handshake_requires_two_readyok_witness :
    handshakeAfterUciOk .readyOk .readyOk = .ok () :=
  (handshake_requires_two_readyok .readyOk .readyOk).mpr ⟨rfl, rfl⟩

/-- C2 counterexample: a receiver dropped mid-session (before any successful
send) with two `Info` messages still in flight causes three `Stop` commands to
be written — one per failed publish — not exactly one. -/
theorem receiver_drop_single_stop_refuted :
    workerLoop 0 [.info [], .info [], .bestMove 9 none] =
      .ok { delivered := [], stops := 3 } ∧ (3 : Nat) ≠ 1 :=
  ⟨rfl, by decide⟩

/-- C2 amended: when the receiver is dropped mid-session (after `dropIn`
successful sends, before the terminal `BestMove`), the worker writes one `Stop`
per message drained after the drop — at least one, possibly more — and still
terminates once the engine emits `BestMove`. -/
theorem receiver_drop_stop_per_drained_message
    (infos : List (List UciInfoAttribute)) (dropIn : Nat) (mv : ChessMove)
    (p : Option ChessMove) (h : dropIn ≤ infos.length) :
    workerLoop dropIn (infos.map UciMessage.info ++ [.bestMove mv p]) =
      .ok { delivered := (infos.take dropIn).map
              (fun a => Analysis.possibleMove (processInfo a)),
            stops := infos.length + 1 - dropIn } ∧
    1 ≤ infos.length + 1 - dropIn :=
  ⟨workerLoop_map_info infos dropIn mv p h, by omega⟩

/-- C2 amended, witness: two `Info` messages, receiver dropped after one
successful send — the worker writes two `Stop`s and terminates. -/
theorem receiver_drop_stop_per_drained_message_witness :
    workerLoop 1 [.info [], .info [], .bestMove 9 none] =
      .ok { delivered := [Analysis.possibleMove (processInfo [])], stops := 2 } ∧
    (1 : Nat) ≤ 2 :=
  receiver_drop_stop_per_drained_message [[], []] 1 9 none (by decide)

/-- C8: every `CandidateLine` is built from its own `Info` message alone,
starting from the fixed line default (`depth 0`, `score 0`, empty variation,
`multi_pv 1`): a field absent from the message keeps that default — in
particular a mate-distance-only score leaves the score at 0 — and the event
emitted for the message is `processInfo attrs` wherever the message sits in
the session (no cross-message carry). -/
theorem candidate_fields_independent_defaults (attrs : List UciInfoAttribute) :
    (hasDepthAttr attrs = false → (processInfo attrs).depth = 0) ∧
    (hasCpScore attrs = false → (processInfo attrs).score = 0) ∧
    (hasPvAttr attrs = false → (processInfo attrs).moves = []) ∧
    (hasMultiPvAttr attrs = false → (processInfo attrs).multi_pv = 1) ∧
    (∀ (pre : List (List UciInfoAttribute)) (mv : ChessMove) (p : Option ChessMove),
      sessionEvents ((pre ++ [attrs]).map UciMessage.info ++ [.bestMove mv p]) =
        .ok ((pre ++ [attrs]).map (fun a => Analysis.possibleMove (processInfo a)) ++
              [.bestMove mv])) :=
  ⟨fun h => foldl_applyAttr_depth attrs _ h,
   fun h => foldl_applyAttr_score attrs _ h,
   fun h => foldl_applyAttr_moves attrs _ h,
   fun h => foldl_applyAttr_multi_pv attrs _ h,
   fun _ mv p => sessionEvents_map_info _ mv p⟩

/-- C8 witness: an `Info` carrying only a mate-distance score maps to a
candidate with score 0, depth 0 and multi-PV index 1. -/
theorem candidate_fields_independent_defaults_witness :
    (processInfo [UciInfoAttribute.score none (some 5)]).score = 0 ∧
    (processInfo [UciInfoAttribute.score none (some 5)]).depth = 0 ∧
    (processInfo [UciInfoAttribute.score none (some 5)]).multi_pv = 1 := by
  have h := candidate_fields_independent_defaults [UciInfoAttribute.score none (some 5)]
  exact ⟨h.2.1 rfl, h.1 rfl, h.2.2.2.1 rfl⟩

/-- C6: `check_for_blunder` folds the first session's candidate events into a
map keyed by `multi_pv` where a later event at the same index overwrites the
earlier one; the map is reduced to `(score, first move)` pairs ordered by
score, and when the proposed move equals any entry's move the function returns
immediately with `isBlunder = false` and that ranked list. -/
theorem blunder_first_session_fold_and_early_return
    (engine : List ChessMove → Nat → List UciMessage) (proposed : ChessMove)
    (depth : Nat) (evs : List Analysis) (best : List (Int × ChessMove))
    (h1 : sessionEvents (engine [] depth) = .ok evs)
    (h2 : reduceCandidates (foldCandidates evs) = .ok best)
    (h3 : best.any (fun sm => sm.2 = proposed) = true) :
    check_for_blunder engine proposed depth = .ok (false, best) ∧
    best.Sorted (fun a b => a.1 ≤ b.1) ∧
    (∀ pm pm' : PossibleMove, pm.multi_pv = pm'.multi_pv →
      foldCandidates [.possibleMove pm, .possibleMove pm'] =
        [(pm'.multi_pv, pm')]) := by
  refine ⟨?_, ?_, ?_⟩
  · simp [check_for_blunder, h1, h2, h3]
  · unfold reduceCandidates at h2
    cases hm : mapCandidates (foldCandidates evs) with
    | error e =>
        rw [hm] at h2
        cases h2
    | ok pairs =>
        rw [hm] at h2
        cases h2
        exact sorted_sortedBy _ _
  · intro pm pm' hmp
    simp [foldCandidates, insertPm, hmp]

/-- C6 witness: the engine's sole candidate line is the proposed move itself;
the function returns early with `isBlunder = false` and the ranked list. -/
theorem blunder_first_session_fold_and_early_return_witness :
    check_for_blunder
        (fun _ _ => [.info [.score (some 10) none, .pv [5]], .bestMove 5 none])
        5 7 = .ok (false, [((10 : Int), (5 : ChessMove))]) ∧
    List.Sorted (fun a b => a.1 ≤ b.1) [((10 : Int), (5 : ChessMove))] := by
  have h := blunder_first_session_fold_and_early_return
    (fun _ _ => [.info [.score (some 10) none, .pv [5]], .bestMove 5 none])
    5 7
    [.possibleMove { depth := 0, score := 10, multi_pv := 1, moves := [5] },
     .bestMove 5]
    [((10 : Int), (5 : ChessMove))] rfl rfl rfl
  exact ⟨h.1, h.2.1⟩

/-- C9: when, past the early-return check, the second session (proposed move
appended) produces no candidate event at all, `check_for_blunder` aborts with
the `"Did not find any responses"` panic instead of returning a verdict. -/
theorem blunder_aborts_without_responses
    (engine : List ChessMove → Nat → List UciMessage) (proposed : ChessMove)
    (depth : Nat) (evs1 : List Analysis) (best : List (Int × ChessMove))
    (evs2 : List Analysis)
    (h1 : sessionEvents (engine [] depth) = .ok evs1)
    (h2 : reduceCandidates (foldCandidates evs1) = .ok best)
    (h3 : best.any (fun sm => sm.2 = proposed) = false)
    (h4 : sessionEvents (engine [proposed] depth) = .ok evs2)
    (h5 : ∀ e ∈ evs2, e.isBest = true) :
    check_for_blunder engine proposed depth = .error .noResponses := by
  simp [check_for_blunder, h1, h2, h3, h4, foldCandidates_all_best evs2 h5,
        sortedBy]

/-- C9 witness: the second session returns only a `BestMove` and the function
aborts with `noResponses`. -/
theorem blunder_aborts_without_responses_witness :
    check_for_blunder
        (fun moves _ =>
          if moves.isEmpty then
            [.info [.score (some 10) none, .pv [5]], .bestMove 5 none]
          else [.bestMove 9 none])
        7 6 = .error .noResponses := by
  have h := blunder_aborts_without_responses
    (fun moves _ =>
      if moves.isEmpty then
        [.info [.score (some 10) none, .pv [5]], .bestMove 5 none]
      else [.bestMove 9 none])
    7 6
    [.possibleMove { depth := 0, score := 10, multi_pv := 1, moves := [5] },
     .bestMove 5]
    [((10 : Int), (5 : ChessMove))]
    [.bestMove 9] rfl rfl rfl rfl (by decide)
  exact h

/-- C10: the reduction of the first session's candidate map reads
`pm.moves[0]` of every retained candidate; a retained candidate whose
principal variation is empty makes `check_for_blunder` abort with the
out-of-bounds panic instead of returning a verdict. -/
theorem blunder_aborts_on_empty_pv
    (engine : List ChessMove → Nat → List UciMessage) (proposed : ChessMove)
    (depth : Nat) (evs1 : List Analysis) (kv : Nat × PossibleMove)
    (h1 : sessionEvents (engine [] depth) = .ok evs1)
    (h2 : kv ∈ foldCandidates evs1)
    (h3 : kv.2.moves = []) :
    check_for_blunder engine proposed depth = .error .emptyPv := by
  have hm := mapCandidates_empty_pv (foldCandidates evs1) kv h2 h3
  simp [check_for_blunder, h1, reduceCandidates, hm]

/-- C10 witness: the sole `Info` message carries a score but no principal
variation; the retained candidate's move list is empty and the function aborts
with the out-of-bounds panic. -/
theorem blunder_aborts_on_empty_pv_witness :
    check_for_blunder
        (fun _ _ => [.info [.score (some 3) none], .bestMove 4 none])
        7 6 = .error .emptyPv := by
  have h := blunder_aborts_on_empty_pv
    (fun _ _ => [.info [.score (some 3) none], .bestMove 4 none])
    7 6
    [.possibleMove { depth := 0, score := 3, multi_pv := 1, moves := [] },
     .bestMove 4]
    (1, { depth := 0, score := 3, multi_pv := 1, moves := [] })
    rfl (by decide) rfl
  exact h

/-- C1: `check_for_blunder` never performs the threshold comparison — here the
proposed move's line scores 1200 centipawns worse than the engine's best line
(300 vs −900), yet the function returns `(false, [])`, discarding both the
verdict computation and the ranked alternatives. -/
theorem blunder_threshold_comparison_stubbed :
    check_for_blunder
        (fun moves _ =>
          if moves.isEmpty then
            [.info [.score (some 300) none, .pv [10, 11], .multiPv 1],
             .bestMove 10 none]
          else
            [.info [.score (some (-900)) none, .pv [33], .multiPv 1],
             .bestMove 33 none])
        77 7 = .ok (false, []) := rfl
